import Mathlib

/-!
Verification of the importarr pipeline (src/importarr.py): a shallow
embedding of the folder-discovery, classification, batching, catalog-sync
pagination and dry-run logic, followed by theorems about those
definitions.
-/

namespace Importarr

/-! ### Filesystem model and folder discovery
(`count_files_in_folder`, `get_all_subfolders_recursive`) -/

/-- A model of a directory tree: a name, whether the directory can be
listed (`os.listdir` succeeds), its plain files (by name) and its
subdirectories, in listing order. -/
inductive Dir : Type where
  | mk (name : String) (readable : Bool) (fileNames : List String) (subs : List Dir)

def Dir.name : Dir → String
  | .mk n _ _ _ => n

def Dir.readable : Dir → Bool
  | .mk _ r _ _ => r

def Dir.fileNames : Dir → List String
  | .mk _ _ f _ => f

def Dir.subs : Dir → List Dir
  | .mk _ _ _ s => s

/-- `count_files_in_folder`: number of plain files in a folder; any
listing error is swallowed and yields 0. -/
def count_files_in_folder (d : Dir) : Nat :=
  if d.readable then d.fileNames.length else 0

/-- A discovered folder record: (path, depth, file count), as appended to
`all_folders` by `scan_directory`. -/
abbrev Entry := String × Nat × Nat

/-- Output of the instrumented scan: the collected folder records, the
log of directories whose contents were listed (path with the directory's
own depth, the import root being depth 0), and the warnings printed for
unreadable directories. -/
structure ScanOut where
  entries : List Entry
  visits : List (String × Nat)
  warnings : List String
deriving DecidableEq

mutual

/-- `scan_directory(path, current_depth)` from
`get_all_subfolders_recursive`, together with `scanChildren` for its
`for subfolder in subfolders` loop.  The directory at `path` sits at
depth `depth - 1`; its children are recorded at depth `depth`.  An
unreadable directory produces a warning and nothing else; the listing
attempt is still logged as a visit. -/
def scan_directory (maxDepth : Nat) (path : String) (depth : Nat) : Dir → ScanOut
  | .mk _ readable _ subs =>
    if maxDepth < depth then ⟨[], [], []⟩
    else if readable then
      let rest := scanChildren maxDepth path depth subs
      ⟨rest.entries, (path, depth - 1) :: rest.visits, rest.warnings⟩
    else ⟨[], [(path, depth - 1)], [path]⟩

/-- For each subfolder, in order: count its files (a listing attempt),
record its entry, then recurse into it one level deeper. -/
def scanChildren (maxDepth : Nat) (path : String) (depth : Nat) : List Dir → ScanOut
  | [] => ⟨[], [], []⟩
  | c :: cs =>
    let cpath := path ++ "/" ++ c.name
    let sub := scan_directory maxDepth cpath (depth + 1) c
    let rest := scanChildren maxDepth path depth cs
    ⟨(cpath, depth, count_files_in_folder c) :: (sub.entries ++ rest.entries),
     (cpath, depth) :: (sub.visits ++ rest.visits),
     sub.warnings ++ rest.warnings⟩

end

/-- Sort key of `all_folders.sort(key=lambda x: (-x[1], -x[2], x[0]))`:
record `a` precedes (or equals) record `b` when `a` has greater depth, or
equal depth and greater file count, or equal depth and file count and a
path that is not lexicographically larger. -/
def folderLE (a b : Entry) : Prop :=
  b.2.1 < a.2.1 ∨ (a.2.1 = b.2.1 ∧ (b.2.2 < a.2.2 ∨ (a.2.2 = b.2.2 ∧ a.1 ≤ b.1)))

instance : DecidableRel folderLE := fun a b => by
  unfold folderLE; infer_instance

instance : IsTotal Entry folderLE where
  total a b := by
    unfold folderLE
    rcases Nat.lt_trichotomy a.2.1 b.2.1 with h | h | h
    · exact Or.inr (Or.inl h)
    · rcases Nat.lt_trichotomy a.2.2 b.2.2 with h2 | h2 | h2
      · exact Or.inr (Or.inr ⟨h.symm, Or.inl h2⟩)
      · rcases le_total a.1 b.1 with h3 | h3
        · exact Or.inl (Or.inr ⟨h, Or.inr ⟨h2, h3⟩⟩)
        · exact Or.inr (Or.inr ⟨h.symm, Or.inr ⟨h2.symm, h3⟩⟩)
      · exact Or.inl (Or.inr ⟨h, Or.inl h2⟩)
    · exact Or.inl (Or.inl h)

instance : IsTrans Entry folderLE where
  trans a b c hab hbc := by
    unfold folderLE at *
    rcases hab with h | ⟨hd, h⟩
    · rcases hbc with h2 | ⟨hd2, _⟩
      · exact Or.inl (h2.trans h)
      · exact Or.inl (lt_of_eq_of_lt hd2.symm h)
    · rcases hbc with h2 | ⟨hd2, h3⟩
      · exact Or.inl (lt_of_lt_of_eq h2 hd.symm)
      · refine Or.inr ⟨hd.trans hd2, ?_⟩
        rcases h with hf | ⟨hfe, hp⟩
        · rcases h3 with hf2 | ⟨hfe2, _⟩
          · exact Or.inl (hf2.trans hf)
          · exact Or.inl (lt_of_eq_of_lt hfe2.symm hf)
        · rcases h3 with hf2 | ⟨hfe2, hp2⟩
          · exact Or.inl (lt_of_lt_of_eq hf2 hfe.symm)
          · exact Or.inr ⟨hfe.trans hfe2, hp.trans hp2⟩

/-- `get_all_subfolders_recursive(root_path, max_depth)`: scan from the
root at `current_depth = 1`, then sort by `(-depth, -file_count, path)`.
Python's `list.sort` is a stable sort; `List.insertionSort` is the stable
sort available here, and a stable sort by a total preorder is unique. -/
def get_all_subfolders_recursive (rootPath : String) (root : Dir) (maxDepth : Nat) :
    List Entry :=
  List.insertionSort folderLE (scan_directory maxDepth rootPath 1 root).entries

/-! ### Remote file descriptors and classification
(`filter_matched_files`) -/

/-- A matched entity (`scene` / `movie` value in a manual-import
descriptor): an optional numeric id (Python treats a missing id and an
id of 0 alike as falsy) and an optional title. -/
structure Entity where
  id : Option Nat
  title : Option String
deriving DecidableEq

/-- A remote file descriptor returned by the manual-import endpoint. -/
structure FileDesc where
  path : Option String
  folderName : Option String
  scene : Option Entity
  movie : Option Entity
  rejections : List (Option String)
deriving DecidableEq

/-- The id `scene.get("id")` contributes when the entity is present and
the id is truthy (present and nonzero). -/
def entityId : Option Entity → Option Nat
  | none => none
  | some e =>
    match e.id with
    | none => none
    | some n => if n ≠ 0 then some n else none

/-- The `scene_id` computed by `filter_matched_files`: the scene's id
when truthy, else the movie's id when truthy, else none.  The same
`if scene and scene.get("id") ... elif movie and movie.get("id")`
cascade is repeated in `import_file_batch` for `entity_id`. -/
def resolvedId (f : FileDesc) : Option Nat :=
  match entityId f.scene with
  | some n => some n
  | none => entityId f.movie

/-- The three classification buckets. -/
inductive Bucket : Type where
  | matched
  | potential
  | unmatched
deriving DecidableEq

/-- The bucket a single descriptor falls into; a pure function of the
descriptor. -/
def classify (f : FileDesc) : Bucket :=
  if (resolvedId f).isSome then .matched
  else if f.scene.isSome || f.movie.isSome then .potential
  else .unmatched

/-- The record built for a potential match. -/
structure PotentialRec where
  file : FileDesc
  scene_title : String
  rejections : List String
deriving DecidableEq

/-- The record built for an unmatched file. -/
structure UnmatchedRec where
  path : String
  rejections : List String
deriving DecidableEq

/-- `(scene or movie).get("title", "Unknown")` for the potential branch. -/
def potentialTitle (f : FileDesc) : String :=
  match f.scene with
  | some e => e.title.getD "Unknown"
  | none =>
    match f.movie with
    | some e => e.title.getD "Unknown"
    | none => "Unknown"

/-- `[r.get("reason", "Unknown") for r in rejections]`. -/
def rejectionReasons (f : FileDesc) : List String :=
  f.rejections.map (fun r => r.getD "Unknown")

/-- `filter_matched_files`: separate descriptors into matched /
potential / unmatched, preserving input order within each bucket. -/
def filter_matched_files : List FileDesc → List FileDesc × List PotentialRec × List UnmatchedRec
  | [] => ([], [], [])
  | f :: rest =>
    let (m, p, u) := filter_matched_files rest
    match resolvedId f with
    | some _ => (f :: m, p, u)
    | none =>
      if f.scene.isSome || f.movie.isSome then
        (m, ⟨f, potentialTitle f, rejectionReasons f⟩ :: p, u)
      else
        (m, p, ⟨f.path.getD "Unknown",
                if f.rejections.isEmpty then ["No scene/movie data in response"]
                else rejectionReasons f⟩ :: u)

/-- A 10-descriptor scenario list: 6 with a scene id, 2 with an entity
but no usable id, 2 with no entity at all. -/
def scenarioFiles : List FileDesc :=
  [⟨some "f1", none, some ⟨some 1, none⟩, none, []⟩,
   ⟨some "f2", none, some ⟨some 2, none⟩, none, []⟩,
   ⟨some "f3", none, some ⟨some 3, none⟩, none, []⟩,
   ⟨some "f4", none, some ⟨some 4, none⟩, none, []⟩,
   ⟨some "f5", none, some ⟨some 5, none⟩, none, []⟩,
   ⟨some "f6", none, some ⟨some 6, none⟩, none, []⟩,
   ⟨some "g1", none, some ⟨none, some "T1"⟩, none, [some "ambiguous"]⟩,
   ⟨some "g2", none, none, some ⟨none, none⟩, []⟩,
   ⟨some "h1", none, none, none, [some "no match"]⟩,
   ⟨none, none, none, none, []⟩]

/-! ### Batching (`process_file_folder`, lines 643-658) -/

/-- The batch slices `matched[i:i+FILE_BATCH_SIZE]` for
`i in range(0, len(matched), FILE_BATCH_SIZE)`: `range(0, n, B)` has
`⌈n/B⌉` elements `0, B, 2B, ...`, and `l[i:i+B]` is `(l.drop i).take B`. -/
def sliceBatches (B : Nat) (l : List α) : List (List α) :=
  (List.range' 0 ((l.length + B - 1) / B) B).map (fun i => (l.drop i).take B)

/-! ### Batch submission (`import_file_batch`) -/

/-- A formatted submission record for the `ManualImport` command. -/
structure FormattedFile where
  path : Option String
  folderName : String
  movieId : Nat
  importMode : String
deriving DecidableEq

/-- The formatting loop of `import_file_batch`: recompute the entity id
with the same scene-then-movie cascade, skip (with a warning) files
without a usable id, and carry the rest over verbatim. -/
def formatFiles (importMode : String) : List FileDesc → List FormattedFile
  | [] => []
  | f :: rest =>
    let entity_id : Option Nat :=
      match entityId f.scene with
      | some n => some n
      | none => entityId f.movie
    match entity_id with
    | none => formatFiles importMode rest
    | some n => ⟨f.path, f.folderName.getD "", n, importMode⟩ :: formatFiles importMode rest

/-- Outcome of the POST to `/api/v3/command`. -/
inductive PostResult : Type where
  | ok (commandId : Nat)
  | missingId
  | networkError
deriving DecidableEq

/-- Result of `import_file_batch`: the returned boolean and the POST
payloads actually sent to the import target. -/
structure IFBOut where
  success : Bool
  posts : List (List FormattedFile)
deriving DecidableEq

/-- `import_file_batch`: in dry-run mode return success without issuing
any POST; otherwise format the batch, fail (without a POST) when no file
survives formatting, else POST and succeed exactly when the response
carries a command id. -/
def import_file_batch (dryRun : Bool) (importMode : String)
    (post : List FormattedFile → PostResult) (batch : List FileDesc) : IFBOut :=
  if dryRun then ⟨true, []⟩
  else
    let fs := formatFiles importMode batch
    if fs.isEmpty then ⟨false, []⟩
    else
      match post fs with
      | .ok _ => ⟨true, [fs]⟩
      | .missingId => ⟨false, [fs]⟩
      | .networkError => ⟨false, [fs]⟩

/-- The per-folder result of `process_file_folder`, instrumented with the
batch slices it formed and the POSTs it issued. -/
structure FolderOut where
  imported : Nat
  unmatchedCt : Nat
  successfulBatches : Nat
  totalBatches : Nat
  slices : List (List FileDesc)
  posts : List (List FormattedFile)
deriving DecidableEq

/-- `process_file_folder` on the descriptor list returned for one
folder: classify, then submit the matched files in slices of
`FILE_BATCH_SIZE`. -/
def process_file_folder (dryRun : Bool) (B : Nat) (importMode : String)
    (post : List FormattedFile → PostResult) (files : List FileDesc) : FolderOut :=
  if files.isEmpty then ⟨0, 0, 0, 0, [], []⟩
  else
    let (m, p, u) := filter_matched_files files
    if m.isEmpty then ⟨0, u.length + p.length, 0, 0, [], []⟩
    else
      let bs := sliceBatches B m
      let outs := bs.map (import_file_batch dryRun importMode post)
      ⟨m.length, u.length + p.length, (outs.filter (·.success)).length, bs.length,
       bs, (outs.map (·.posts)).flatten⟩

/-! ### Catalog sync (`add_scene_to_whisparr`, `process_stash_batch`) -/

/-- How the import target answers a registration POST. -/
inductive AddResult : Type where
  | ok
  | httpAlreadyExists
  | httpNotFound
  | httpValidation
  | networkError
deriving DecidableEq

/-- Result of `add_scene_to_whisparr`: the returned boolean, whether a
POST was issued, and how much `scenes_already_exist` was bumped inside
the call (the HTTP 400 already-exists path). -/
structure AddOut where
  success : Bool
  postIssued : Bool
  alreadyInc : Nat
deriving DecidableEq

/-- `add_scene_to_whisparr`: dry-run returns success with no POST;
otherwise POST and map the response: created and already-exists are
success, everything else is failure. -/
def add_scene_to_whisparr (dryRun : Bool) (remote : String → AddResult)
    (sid : String) : AddOut :=
  if dryRun then ⟨true, false, 0⟩
  else
    match remote sid with
    | .ok => ⟨true, true, 0⟩
    | .httpAlreadyExists => ⟨true, true, 1⟩
    | .httpNotFound => ⟨false, true, 0⟩
    | .httpValidation => ⟨false, true, 0⟩
    | .networkError => ⟨false, true, 0⟩

/-- The mutable state threaded through `process_stash_batch`: the
`existing_stash_ids` set and the batch counters. -/
structure SyncState where
  existing : List String
  addedCt : Nat
  failedCt : Nat
  alreadyCt : Nat
deriving DecidableEq

/-- The per-scene outcome, as narrated by the log lines. -/
inductive Outcome : Type where
  | added
  | alreadyExists
  | failed
deriving DecidableEq

/-- One iteration of the `for scene in batch` loop of
`process_stash_batch`: an id already in `existing_stash_ids` is skipped
(no registration call) and counted as already-exists; otherwise
`add_scene_to_whisparr` is invoked and, on success, the id is inserted
into the set.  Returns the new state, the outcome, and whether the
registration routine was invoked at all. -/
def processScene (dryRun : Bool) (remote : String → AddResult)
    (st : SyncState) (sid : String) : SyncState × Outcome × Bool :=
  if sid ∈ st.existing then
    ({ st with alreadyCt := st.alreadyCt + 1, addedCt := st.addedCt + 1 },
     .alreadyExists, false)
  else
    let r := add_scene_to_whisparr dryRun remote sid
    if r.success then
      ({ st with addedCt := st.addedCt + 1,
                 alreadyCt := st.alreadyCt + r.alreadyInc,
                 existing := sid :: st.existing },
       (if r.alreadyInc = 0 then .added else .alreadyExists), true)
    else
      ({ st with failedCt := st.failedCt + 1 }, .failed, true)

/-- `process_stash_batch`: fold `processScene` over the batch, keeping
the per-scene trace (outcome, was the registration routine invoked). -/
def process_stash_batch (dryRun : Bool) (remote : String → AddResult)
    (st : SyncState) : List String → SyncState × List (Outcome × Bool)
  | [] => (st, [])
  | sid :: rest =>
    let (st2, oc, inv) := processScene dryRun remote st sid
    let (stF, tr) := process_stash_batch dryRun remote st2 rest
    (stF, (oc, inv) :: tr)

/-- The outcomes recorded for occurrences of `sid` in the batch. -/
def outcomesFor (sid : String) (batch : List String) (tr : List (Outcome × Bool)) :
    List Outcome :=
  ((batch.zip tr).filter (fun pr => pr.1 = sid)).map (fun pr => pr.2.1)

/-- How often the registration routine was invoked for `sid`. -/
def invocationsFor (sid : String) (batch : List String) (tr : List (Outcome × Bool)) :
    Nat :=
  (((batch.zip tr).filter (fun pr => pr.1 = sid)).filter (fun pr => pr.2.2)).length

/-! ### Paginated catalog fetch (`get_stash_scenes`, lines 129-169) -/

/-- One page of the catalog response: a transport/GraphQL error, or the
page's scenes (modelled by their ids) together with the reported total
count. -/
inductive PageResult : Type where
  | err
  | ok (scenes : List Nat) (total : Nat)
deriving DecidableEq

/-- `per_page` is fixed at 100 in `get_stash_scenes`. -/
def per_page : Nat := 100

/-- The `while True` fetch loop of `get_stash_scenes`, with explicit
fuel standing in for nontermination: on an error break; on an empty page
break; otherwise extend the accumulator and break once its length
reaches the page's reported total, else fetch the next page.  Returns
the accumulated scenes and the list of pages requested. -/
def fetchLoop (pages : Nat → PageResult) : Nat → Nat → List Nat → List Nat × List Nat
  | 0, _, acc => (acc, [])
  | fuel + 1, page, acc =>
    match pages page with
    | .err => (acc, [page])
    | .ok scenes total =>
      if scenes.isEmpty then (acc, [page])
      else
        let acc2 := acc ++ scenes
        if total ≤ acc2.length then (acc2, [page])
        else
          ((fetchLoop pages fuel (page + 1) acc2).1,
           page :: (fetchLoop pages fuel (page + 1) acc2).2)

/-- `get_stash_scenes` starts at page 1 with an empty accumulator. -/
def get_stash_scenes (pages : Nat → PageResult) (fuel : Nat) : List Nat × List Nat :=
  fetchLoop pages fuel 1 []

/-- The stopping rule of the amended claim, written from its words: keep
requesting successive pages until a page errors, returns no items, or
the cumulative number of fetched items reaches the total that page
reports — tracking only the cumulative count.  Spec-side description,
to be compared with the code-side loop. -/
def specFetchPlan (pages : Nat → PageResult) : Nat → Nat → Nat → List Nat
  | 0, _, _ => []
  | fuel + 1, page, cum =>
    page ::
      match pages page with
      | .err => []
      | .ok scenes total =>
        if scenes.isEmpty then []
        else if total ≤ cum + scenes.length then []
        else specFetchPlan pages fuel (page + 1) (cum + scenes.length)

/-! ### Folder list assembly (`run_file_import`, lines 693-703) -/

/-- The `MAX_SUBFOLDERS` cap: applied only when the configured value is
truthy (non-null and nonzero) and the list is longer than the cap. -/
def truncSubs (maxSub : Option Nat) (subs : List Entry) : List Entry :=
  match maxSub with
  | none => subs
  | some m => if m ≠ 0 ∧ m < subs.length then subs.take m else subs

/-- `folders_to_process`: the capped subfolder list, with the synthetic
root entry (depth 0) prepended when `PROCESS_ROOT_FILES` is set. -/
def folders_to_process (processRoot : Bool) (maxSub : Option Nat)
    (rootPath : String) (rootFileCount : Nat) (subs : List Entry) : List Entry :=
  (if processRoot then [(rootPath, 0, rootFileCount)] else []) ++ truncSubs maxSub subs

/-! ### Concrete instances used in scenarios and counterexamples -/

/-- A tree whose root holds an unreadable subfolder U (itself holding a
file and a subdirectory W) next to a readable empty subfolder V. -/
def exTreeUnreadable : Dir :=
  .mk "r" true []
    [.mk "U" false ["secret"] [.mk "W" true [] []],
     .mk "V" true ["v1"] []]

/-- A descriptor carrying both a scene entity (without a usable id) and
a movie entity (with id 5). -/
def bothEntitiesFile : FileDesc :=
  ⟨some "/import/x.mp4", none, some ⟨none, some "SceneTitle"⟩,
   some ⟨some 5, some "MovieTitle"⟩, []⟩

/-- A catalog that serves two pages of 30 scenes while reporting a total
of 500, then an empty page: each page is shorter than `per_page`. -/
def shortPages : Nat → PageResult :=
  fun n => if n = 1 then .ok (List.range 30) 500
    else if n = 2 then .ok (List.range 30) 500
    else .ok [] 0

/-! ### Theorems: batching (C1) -/

lemma slice_shift {α : Type} (B : Nat) : ∀ (k s : Nat) (l : List α),
    (List.range' s k B).map (fun i => (l.drop i).take B) =
      (List.range' 0 k B).map (fun i => ((l.drop s).drop i).take B)
  | 0, _, _ => rfl
  | k + 1, s, l => by
    rw [List.range'_succ, List.range'_succ]
    simp only [List.map_cons, List.drop_zero, Nat.zero_add]
    congr 1
    rw [slice_shift B k (s + B) l, slice_shift B k B (l.drop s)]
    simp [List.drop_drop, Nat.add_comm]

lemma ceil_div_zero (B : Nat) : (0 + B - 1) / B = 0 := by
  cases B with
  | zero => rfl
  | succ b => exact Nat.div_eq_of_lt (by omega)

lemma sliceBatches_nil {α : Type} (B : Nat) : sliceBatches B ([] : List α) = [] := by
  unfold sliceBatches
  simp
  cases B with
  | zero => rfl
  | succ b => exact Nat.div_eq_of_lt (by omega)

lemma sliceBatches_cons {α : Type} (B : Nat) (hB : 0 < B) (l : List α) (hl : l ≠ []) :
    sliceBatches B l = l.take B :: sliceBatches B (l.drop B) := by
  have hlen : 0 < l.length := List.length_pos.mpr hl
  have hcount : (l.length + B - 1) / B = (l.length - 1) / B + 1 := by
    have h : l.length + B - 1 = (l.length - 1) + B := by omega
    rw [h, Nat.add_div_right _ hB]
  have hcount2 : ((l.drop B).length + B - 1) / B = (l.length - 1) / B := by
    rw [List.length_drop]
    rcases Nat.lt_or_ge B l.length with h | h
    · have h2 : l.length - B + B - 1 = l.length - 1 := by omega
      rw [h2]
    · have h1 : l.length - B = 0 := by omega
      rw [h1, ceil_div_zero]
      exact (Nat.div_eq_of_lt (by omega)).symm
  show (List.range' 0 ((l.length + B - 1) / B) B).map (fun i => (l.drop i).take B) = _
  rw [hcount, List.range'_succ]
  simp only [List.map_cons, List.drop_zero, Nat.zero_add]
  congr 1
  rw [slice_shift]
  show _ = (List.range' 0 (((l.drop B).length + B - 1) / B) B).map
      (fun i => ((l.drop B).drop i).take B)
  rw [hcount2]

lemma sliceBatches_props {α : Type} (B : Nat) (hB : 0 < B) :
    ∀ (n : Nat) (l : List α), l.length ≤ n →
      (sliceBatches B l).flatten = l ∧
      (∀ b ∈ sliceBatches B l, b.length ≤ B) ∧
      (∀ b ∈ (sliceBatches B l).dropLast, b.length = B)
  | 0, l, h => by
    have hl : l = [] := List.length_eq_zero.mp (Nat.le_zero.mp h)
    subst hl
    simp [sliceBatches_nil]
  | n + 1, l, h => by
    by_cases hl : l = []
    · subst hl
      simp [sliceBatches_nil]
    · have hlen : 0 < l.length := List.length_pos.mpr hl
      have hdlen : (l.drop B).length ≤ n := by
        rw [List.length_drop]; omega
      obtain ⟨h1, h2, h3⟩ := sliceBatches_props B hB n (l.drop B) hdlen
      rw [sliceBatches_cons B hB l hl]
      refine ⟨?_, ?_, ?_⟩
      · simp only [List.flatten_cons, h1, List.take_append_drop]
      · intro b hb
        rcases List.mem_cons.mp hb with hb | hb
        · subst hb
          rw [List.length_take]
          omega
        · exact h2 b hb
      · intro b hb
        cases hsb : sliceBatches B (l.drop B) with
        | nil =>
          rw [hsb] at hb
          simp at hb
        | cons c cs =>
          have hdne : l.drop B ≠ [] := by
            intro hcon
            rw [hcon, sliceBatches_nil] at hsb
            exact List.noConfusion hsb
          have hgt : B < l.length := by
            have := List.length_pos.mpr hdne
            rw [List.length_drop] at this
            omega
          rw [hsb] at hb
          rw [List.dropLast_cons₂] at hb
          rcases List.mem_cons.mp hb with hb | hb
          · subst hb
            rw [List.length_take]
            omega
          · exact h3 b (by rw [hsb]; exact hb)

set_option maxRecDepth 10000 in
/-- C1: for every Matched list and positive batch size, the consecutive
slices `matched[i:i+B]` taken by `process_file_folder` concatenate back
to the original list, no slice exceeds `B`, every slice except possibly
the last has exactly `B` elements, and a list of 120 with batch size 50
yields slices of sizes [50, 50, 20]. -/
theorem c1_batching (matched : List FileDesc) (B : Nat) (hB : 0 < B) :
    (sliceBatches B matched).flatten = matched ∧
    (∀ b ∈ sliceBatches B matched, b.length ≤ B) ∧
    (∀ b ∈ (sliceBatches B matched).dropLast, b.length = B) ∧
    (sliceBatches 50 (List.range 120)).map List.length = [50, 50, 20] := by
  obtain ⟨h1, h2, h3⟩ := sliceBatches_props B hB matched.length matched le_rfl
  exact ⟨h1, h2, h3, by decide⟩

theorem c1_batching_witness :
    0 < 50 ∧ (sliceBatches 50 (List.range 120)).map List.length = [50, 50, 20] :=
  ⟨by decide, (c1_batching [] 50 (by decide)).2.2.2⟩

/-! ### Theorems: discovery order (C2) -/

/-- Claim C2: the list returned by `get_all_subfolders_recursive` is
totally ordered by the key (−depth, −file_count, path ascending): for
any two records in it, the earlier one has greater depth, or equal
depth and greater file count, or equal depth and file count and a path
that is not lexicographically larger; and the root with subfolders
A (depth 1, 5 files) and A/B (depth 2, 3 files) yields [A/B, A]. -/
theorem c2_sort_order (rootPath : String) (root : Dir) (maxDepth : Nat) :
    (get_all_subfolders_recursive rootPath root maxDepth).Pairwise folderLE ∧
    get_all_subfolders_recursive "/r"
        (.mk "r" true []
          [.mk "A" true ["f1", "f2", "f3", "f4", "f5"]
            [.mk "B" true ["g1", "g2", "g3"] []]])
        10 = [("/r/A/B", 2, 3), ("/r/A", 1, 5)] :=
  ⟨List.sorted_insertionSort folderLE _, by decide⟩

/-! ### Theorems: classification (C3, C8) -/

lemma filter_matched_spec (files : List FileDesc) :
    (filter_matched_files files).1.length + (filter_matched_files files).2.1.length +
        (filter_matched_files files).2.2.length = files.length ∧
    (filter_matched_files files).1 =
        files.filter (fun f => classify f == Bucket.matched) ∧
    (filter_matched_files files).2.1.map PotentialRec.file =
        files.filter (fun f => classify f == Bucket.potential) ∧
    (filter_matched_files files).2.2.length =
        (files.filter (fun f => classify f == Bucket.unmatched)).length := by
  induction files with
  | nil => simp [filter_matched_files]
  | cons f rest ih =>
    obtain ⟨ih1, ih2, ih3, ih4⟩ := ih
    rcases hrest : filter_matched_files rest with ⟨m, p, u⟩
    rw [hrest] at ih1 ih2 ih3 ih4
    simp only at ih1 ih2 ih3 ih4
    cases hr : resolvedId f with
    | some n =>
      have hc : classify f = Bucket.matched := by simp [classify, hr]
      have heq : filter_matched_files (f :: rest) = (f :: m, p, u) := by
        simp [filter_matched_files, hrest, hr]
      rw [heq]
      simp only [List.filter_cons, hc, List.length_cons]
      refine ⟨by omega, by simp [ih2], by simp [ih3], by simp [ih4]⟩
    | none =>
      by_cases hsm : (f.scene.isSome || f.movie.isSome) = true
      · have hc : classify f = Bucket.potential := by simp [classify, hr, hsm]
        have heq : filter_matched_files (f :: rest) =
            (m, ⟨f, potentialTitle f, rejectionReasons f⟩ :: p, u) := by
          simp [filter_matched_files, hrest, hr, hsm]
        rw [heq]
        simp only [List.filter_cons, hc, List.length_cons]
        refine ⟨by omega, by simp [ih2], by simp [ih3], by simp [ih4]⟩
      · have hsm2 : (f.scene.isSome || f.movie.isSome) = false := by
          simpa using hsm
        have hc : classify f = Bucket.unmatched := by simp [classify, hr, hsm2]
        have heq : filter_matched_files (f :: rest) =
            (m, p, ⟨f.path.getD "Unknown",
              if f.rejections.isEmpty then ["No scene/movie data in response"]
              else rejectionReasons f⟩ :: u) := by
          simp [filter_matched_files, hrest, hr, hsm2]
        rw [heq]
        simp only [List.filter_cons, hc, List.length_cons]
        refine ⟨by omega, by simp [ih2], by simp [ih3], by simp [ih4]⟩

/-- Claim C3: `filter_matched_files` assigns each descriptor to exactly
one of the three buckets according to the pure per-descriptor function
`classify`; the bucket sizes sum to the input length; and the
10-descriptor scenario (6 scene ids, 2 entities without id, 2 with
none) yields matched=6, potential=2, unmatched=2. -/
theorem c3_classification (files : List FileDesc) :
    (filter_matched_files files).1.length + (filter_matched_files files).2.1.length +
        (filter_matched_files files).2.2.length = files.length ∧
    (filter_matched_files files).1 =
        files.filter (fun f => classify f == Bucket.matched) ∧
    (filter_matched_files files).2.1.map PotentialRec.file =
        files.filter (fun f => classify f == Bucket.potential) ∧
    (filter_matched_files files).2.2.length =
        (files.filter (fun f => classify f == Bucket.unmatched)).length ∧
    ((filter_matched_files scenarioFiles).1.length,
     (filter_matched_files scenarioFiles).2.1.length,
     (filter_matched_files scenarioFiles).2.2.length) = (6, 2, 2) := by
  obtain ⟨h1, h2, h3, h4⟩ := filter_matched_spec files
  exact ⟨h1, h2, h3, h4, by decide⟩

/-! ### Theorems: depth bound (C4) -/

lemma scan_directory_stop (maxDepth : Nat) (path : String) (depth : Nat) (d : Dir)
    (hx : maxDepth < depth) : scan_directory maxDepth path depth d = ⟨[], [], []⟩ := by
  cases d
  simp [scan_directory, hx]

lemma scan_directory_unreadable (maxDepth : Nat) (path : String) (depth : Nat)
    (d : Dir) (hx : depth ≤ maxDepth) (hrd : d.readable = false) :
    scan_directory maxDepth path depth d = ⟨[], [(path, depth - 1)], [path]⟩ := by
  cases d with
  | mk nm rd fs subs =>
    simp only [Dir.readable] at hrd
    subst hrd
    simp [scan_directory, Nat.not_lt.mpr hx]

lemma scan_directory_readable (maxDepth : Nat) (path : String) (depth : Nat)
    (d : Dir) (hx : depth ≤ maxDepth) (hrd : d.readable = true) :
    scan_directory maxDepth path depth d =
      ⟨(scanChildren maxDepth path depth d.subs).entries,
       (path, depth - 1) :: (scanChildren maxDepth path depth d.subs).visits,
       (scanChildren maxDepth path depth d.subs).warnings⟩ := by
  cases d with
  | mk nm rd fs subs =>
    simp only [Dir.readable] at hrd
    subst hrd
    simp [scan_directory, Nat.not_lt.mpr hx, Dir.subs]

lemma scanChildren_nil (maxDepth : Nat) (path : String) (depth : Nat) :
    scanChildren maxDepth path depth [] = ⟨[], [], []⟩ := rfl

lemma scanChildren_cons (maxDepth : Nat) (path : String) (depth : Nat)
    (c : Dir) (cs : List Dir) :
    scanChildren maxDepth path depth (c :: cs) =
      ⟨(path ++ "/" ++ c.name, depth, count_files_in_folder c) ::
          ((scan_directory maxDepth (path ++ "/" ++ c.name) (depth + 1) c).entries ++
            (scanChildren maxDepth path depth cs).entries),
       (path ++ "/" ++ c.name, depth) ::
          ((scan_directory maxDepth (path ++ "/" ++ c.name) (depth + 1) c).visits ++
            (scanChildren maxDepth path depth cs).visits),
       (scan_directory maxDepth (path ++ "/" ++ c.name) (depth + 1) c).warnings ++
          (scanChildren maxDepth path depth cs).warnings⟩ := rfl

mutual

theorem scanDir_bound (maxDepth : Nat) (path : String) (depth : Nat) :
    ∀ d : Dir,
      (∀ e ∈ (scan_directory maxDepth path depth d).entries,
          depth ≤ e.2.1 ∧ e.2.1 ≤ maxDepth) ∧
      (∀ v ∈ (scan_directory maxDepth path depth d).visits, v.2 ≤ maxDepth)
  | .mk nm rd fs subs => by
    by_cases h : maxDepth < depth
    · rw [scan_directory_stop maxDepth path depth _ h]
      simp
    · push_neg at h
      cases hrd : rd with
      | false =>
        rw [scan_directory_unreadable maxDepth path depth (.mk nm false fs subs) h rfl]
        refine ⟨by simp, ?_⟩
        intro v hv
        simp only [List.mem_singleton] at hv
        subst hv
        simp only
        omega
      | true =>
        obtain ⟨hce, hcv⟩ := scanChildren_bound maxDepth path depth h subs
        rw [scan_directory_readable maxDepth path depth (.mk nm true fs subs) h rfl]
        refine ⟨hce, ?_⟩
        intro v hv
        rcases List.mem_cons.mp hv with hv | hv
        · subst hv
          simp only
          omega
        · exact hcv v hv

theorem scanChildren_bound (maxDepth : Nat) (path : String) (depth : Nat)
    (hd : depth ≤ maxDepth) :
    ∀ subs : List Dir,
      (∀ e ∈ (scanChildren maxDepth path depth subs).entries,
          depth ≤ e.2.1 ∧ e.2.1 ≤ maxDepth) ∧
      (∀ v ∈ (scanChildren maxDepth path depth subs).visits, v.2 ≤ maxDepth)
  | [] => by
    rw [scanChildren_nil]
    simp
  | c :: cs => by
    obtain ⟨hse, hsv⟩ := scanDir_bound maxDepth (path ++ "/" ++ c.name) (depth + 1) c
    obtain ⟨hre, hrv⟩ := scanChildren_bound maxDepth path depth hd cs
    rw [scanChildren_cons]
    constructor
    · intro e he
      rcases List.mem_cons.mp he with he | he
      · subst he
        exact ⟨le_rfl, hd⟩
      · rcases List.mem_append.mp he with he | he
        · obtain ⟨h1, h2⟩ := hse e he
          exact ⟨by omega, h2⟩
        · exact hre e he
    · intro v hv
      rcases List.mem_cons.mp hv with hv | hv
      · subst hv
        exact hd
      · rcases List.mem_append.mp hv with hv | hv
        · exact hsv v hv
        · exact hrv v hv

end

/-- Claim C4: no record returned by the scan (and hence by
`get_all_subfolders_recursive`) has depth exceeding the configured
maximum (root's direct children having depth 1), and no directory whose
contents are listed during the traversal lies beyond the maximum depth
(every logged listing is of a directory at depth at most the maximum,
the import root itself being depth 0). -/
theorem c4_max_depth (maxDepth : Nat) (rootPath : String) (root : Dir) :
    (∀ e ∈ (scan_directory maxDepth rootPath 1 root).entries,
        1 ≤ e.2.1 ∧ e.2.1 ≤ maxDepth) ∧
    (∀ v ∈ (scan_directory maxDepth rootPath 1 root).visits, v.2 ≤ maxDepth) ∧
    (∀ e ∈ get_all_subfolders_recursive rootPath root maxDepth,
        1 ≤ e.2.1 ∧ e.2.1 ≤ maxDepth) := by
  obtain ⟨h1, h2⟩ := scanDir_bound maxDepth rootPath 1 root
  refine ⟨h1, h2, ?_⟩
  intro e he
  exact h1 e ((List.perm_insertionSort folderLE _).mem_iff.mp he)

theorem c4_max_depth_witness :
    (("/r/A", 1, 0) ∈
        get_all_subfolders_recursive "/r" (.mk "r" true [] [.mk "A" true [] []]) 3) ∧
    1 ≤ 1 ∧ 1 ≤ 3 :=
  ⟨by decide,
   (c4_max_depth 3 "/r" (.mk "r" true [] [.mk "A" true [] []])).2.2
     ("/r/A", 1, 0) (by decide)⟩

/-! ### Theorems: unreadable directories (C7) -/

lemma scanChildren_append (maxDepth : Nat) (path : String) (depth : Nat) :
    ∀ ds1 ds2 : List Dir,
      (scanChildren maxDepth path depth (ds1 ++ ds2)).entries =
        (scanChildren maxDepth path depth ds1).entries ++
          (scanChildren maxDepth path depth ds2).entries
  | [], ds2 => by simp [scanChildren_nil]
  | c :: cs, ds2 => by
    rw [List.cons_append, scanChildren_cons, scanChildren_cons]
    simp only [List.cons_append, List.append_assoc,
      scanChildren_append maxDepth path depth cs ds2]

/-- Claim C7 counterexample: in a tree whose root holds the unreadable
subfolder U, discovery does return an entry for U — the unreadable
directory appears in the returned folder list (with file count 0), and a
warning naming it is emitted.  The claim that it "does not appear in the
returned folder list" is false. -/
theorem c7_counterexample :
    (Dir.readable (.mk "U" false ["secret"] [.mk "W" true [] []]) = false) ∧
    (("/r/U", 1, 0) ∈ get_all_subfolders_recursive "/r" exTreeUnreadable 10) ∧
    ("/r/U" ∈ (scan_directory 10 "/r" 1 exTreeUnreadable).warnings) := by decide

/-- Claim C7 amended: when its scan is attempted within the depth limit,
an unreadable directory contributes no entries of its own (its contents
are skipped) and a warning naming it is emitted; the scan does not
abort — sibling directories before and after it are scanned exactly as
they would be on their own; but the unreadable directory itself still
appears as an entry of its parent's scan, with file count 0. -/
theorem c7_unreadable (maxDepth : Nat) (path : String) (depth : Nat)
    (nm : String) (fs : List String) (subs : List Dir) (hdep : depth ≤ maxDepth) :
    (scan_directory maxDepth path depth (.mk nm false fs subs) =
      ⟨[], [(path, depth - 1)], [path]⟩) ∧
    (∀ ds1 ds2 : List Dir,
      (scanChildren maxDepth path depth (ds1 ++ ds2)).entries =
        (scanChildren maxDepth path depth ds1).entries ++
          (scanChildren maxDepth path depth ds2).entries) ∧
    ((path ++ "/" ++ nm, depth, 0) ∈
      (scanChildren maxDepth path depth [.mk nm false fs subs]).entries) := by
  refine ⟨scan_directory_unreadable maxDepth path depth _ hdep rfl,
    scanChildren_append maxDepth path depth, ?_⟩
  rw [scanChildren_cons]
  exact List.mem_cons_self _ _

theorem c7_unreadable_witness :
    (1 ≤ 10) ∧
    (("/r/U", 1, 0) ∈
      (scanChildren 10 "/r" 1 [.mk "U" false ["secret"] [.mk "W" true [] []]]).entries) :=
  ⟨by decide, (c7_unreadable 10 "/r" 1 "U" ["secret"] [.mk "W" true [] []]
    (by decide)).2.2⟩

/-! ### Theorems: entity resolution (C8) -/

/-- Claim C8 counterexample: `bothEntitiesFile` carries both entities,
the scene entity has no usable id, and the identifier resolved (and the
one submitted by `import_file_batch`) is the movie's id 5 — so with both
entities present the scene's identifier is not necessarily the one used,
refuting the claim as stated. -/
theorem c8_counterexample :
    bothEntitiesFile.scene.isSome = true ∧
    bothEntitiesFile.movie.isSome = true ∧
    bothEntitiesFile.scene.bind Entity.id = none ∧
    resolvedId bothEntitiesFile = some 5 ∧
    classify bothEntitiesFile = Bucket.matched ∧
    (formatFiles "copy" [bothEntitiesFile]).map FormattedFile.movieId = [5] := by
  decide

lemma formatFiles_cons (im : String) (f : FileDesc) (rest : List FileDesc) :
    formatFiles im (f :: rest) =
      match resolvedId f with
      | none => formatFiles im rest
      | some n => ⟨f.path, f.folderName.getD "", n, im⟩ :: formatFiles im rest := rfl

/-- Claim C8 amended: the resolved identifier is the scene entity's id
whenever the scene carries a usable (present, nonzero) id — in
particular the scene wins when both entities carry usable ids — and
otherwise it is the movie entity's usable id; a descriptor is
import-eligible (classified Matched) exactly when such a resolved
identifier exists; and the submission loop of `import_file_batch`
resolves the very same identifiers: the submitted `movieId`s are exactly
the resolved ids of the batch. -/
theorem c8_entity_resolution (f : FileDesc) (batch : List FileDesc) (im : String) :
    (∀ n, entityId f.scene = some n → resolvedId f = some n) ∧
    (entityId f.scene = none → resolvedId f = entityId f.movie) ∧
    (classify f = Bucket.matched ↔ (resolvedId f).isSome = true) ∧
    ((formatFiles im batch).map FormattedFile.movieId = batch.filterMap resolvedId) := by
  refine ⟨?_, ?_, ?_, ?_⟩
  · intro n hn
    simp [resolvedId, hn]
  · intro hn
    simp [resolvedId, hn]
  · constructor
    · intro hc
      by_cases hs : (resolvedId f).isSome = true
      · exact hs
      · exfalso
        simp only [Bool.not_eq_true] at hs
        by_cases hm : (f.scene.isSome || f.movie.isSome) = true
        · simp [classify, hs, hm] at hc
        · simp only [Bool.not_eq_true] at hm
          simp [classify, hs, hm] at hc
    · intro hs
      simp [classify, hs]
  · induction batch with
    | nil => rfl
    | cons g rest ih =>
      rw [formatFiles_cons, List.filterMap_cons]
      cases hr : resolvedId g with
      | none => simpa using ih
      | some n => simpa using ih

theorem c8_entity_resolution_witness :
    entityId (FileDesc.scene ⟨none, none, some ⟨some 7, none⟩, none, []⟩) = some 7 ∧
    resolvedId ⟨none, none, some ⟨some 7, none⟩, none, []⟩ = some 7 :=
  ⟨by decide,
   (c8_entity_resolution ⟨none, none, some ⟨some 7, none⟩, none, []⟩ [] "copy").1 7
     (by decide)⟩

/-! ### Theorems: idempotent registration (C5) -/

lemma processScene_skip (d : Bool) (r : String → AddResult) (st : SyncState)
    (sid : String) (h : sid ∈ st.existing) :
    processScene d r st sid =
      (⟨st.existing, st.addedCt + 1, st.failedCt, st.alreadyCt + 1⟩,
       Outcome.alreadyExists, false) := by
  simp [processScene, h]

lemma processScene_first (r : String → AddResult) (st : SyncState) (sid : String)
    (h0 : sid ∉ st.existing) (hok : r sid = .ok) :
    processScene false r st sid =
      (⟨sid :: st.existing, st.addedCt + 1, st.failedCt, st.alreadyCt⟩,
       Outcome.added, true) := by
  simp [processScene, h0, add_scene_to_whisparr, hok]

lemma processScene_mem_mono (d : Bool) (r : String → AddResult) (st : SyncState)
    (x sid : String) (h : sid ∈ st.existing) :
    sid ∈ (processScene d r st x).1.existing := by
  by_cases hx : x ∈ st.existing
  · simp [processScene, hx, h]
  · by_cases hs : (add_scene_to_whisparr d r x).success = true
    · simp [processScene, hx, hs, h]
    · simp [processScene, hx, hs, h]

lemma processScene_not_mem (d : Bool) (r : String → AddResult) (st : SyncState)
    (x sid : String) (h : sid ∉ st.existing) (hne : x ≠ sid) :
    sid ∉ (processScene d r st x).1.existing := by
  by_cases hx : x ∈ st.existing
  · simp [processScene, hx, h]
  · by_cases hs : (add_scene_to_whisparr d r x).success = true
    · simp [processScene, hx, hs, List.mem_cons, h]
      exact fun hcon => hne hcon.symm
    · simp [processScene, hx, hs, h]

lemma outcomesFor_cons (sid x : String) (oc : Outcome) (inv : Bool)
    (rest : List String) (tr : List (Outcome × Bool)) :
    outcomesFor sid (x :: rest) ((oc, inv) :: tr) =
      if x = sid then oc :: outcomesFor sid rest tr else outcomesFor sid rest tr := by
  by_cases hx : x = sid <;> simp [outcomesFor, hx]

lemma invocationsFor_cons (sid x : String) (oc : Outcome) (inv : Bool)
    (rest : List String) (tr : List (Outcome × Bool)) :
    invocationsFor sid (x :: rest) ((oc, inv) :: tr) =
      (if x = sid ∧ inv = true then 1 else 0) +
        invocationsFor sid rest tr := by
  by_cases hx : x = sid
  · by_cases hinv : inv = true
    · simp [invocationsFor, hx, hinv, Nat.add_comm]
    · simp only [Bool.not_eq_true] at hinv
      simp [invocationsFor, hx, hinv]
  · simp [invocationsFor, hx]

lemma batch_skip (d : Bool) (r : String → AddResult) (sid : String) :
    ∀ (batch : List String) (st : SyncState), sid ∈ st.existing →
      outcomesFor sid batch (process_stash_batch d r st batch).2 =
        List.replicate (batch.count sid) Outcome.alreadyExists ∧
      invocationsFor sid batch (process_stash_batch d r st batch).2 = 0 ∧
      sid ∈ (process_stash_batch d r st batch).1.existing
  | [], st, h => by
    refine ⟨?_, ?_, ?_⟩ <;> simp [process_stash_batch, outcomesFor, invocationsFor, h]
  | x :: rest, st, h => by
    by_cases hx : x = sid
    · subst hx
      obtain ⟨ih1, ih2, ih3⟩ := batch_skip d r x rest
        ⟨st.existing, st.addedCt + 1, st.failedCt, st.alreadyCt + 1⟩ h
      have hbatch : process_stash_batch d r st (x :: rest) =
          ((process_stash_batch d r
              ⟨st.existing, st.addedCt + 1, st.failedCt, st.alreadyCt + 1⟩ rest).1,
           (Outcome.alreadyExists, false) ::
             (process_stash_batch d r
               ⟨st.existing, st.addedCt + 1, st.failedCt, st.alreadyCt + 1⟩ rest).2) := by
        simp [process_stash_batch, processScene_skip d r st x h]
      rw [hbatch]
      refine ⟨?_, ?_, ih3⟩
      · rw [outcomesFor_cons]
        simp [ih1, List.count_cons_self, List.replicate_succ]
      · rw [invocationsFor_cons]
        simp [ih2]
    · rcases hps : processScene d r st x with ⟨st2, oc, inv⟩
      have hmem2 : sid ∈ st2.existing := by
        have hmono := processScene_mem_mono d r st x sid h
        rw [hps] at hmono
        exact hmono
      obtain ⟨ih1, ih2, ih3⟩ := batch_skip d r sid rest st2 hmem2
      have hbatch : process_stash_batch d r st (x :: rest) =
          ((process_stash_batch d r st2 rest).1,
           (oc, inv) :: (process_stash_batch d r st2 rest).2) := by
        simp [process_stash_batch, hps]
      rw [hbatch]
      refine ⟨?_, ?_, ih3⟩
      · rw [outcomesFor_cons]
        simp only [hx, if_false, ih1]
        simp [List.count_cons, hx, Ne.symm hx]
      · rw [invocationsFor_cons]
        simp [hx, ih2]

/-- Claim C5: within one catalog-sync run, an identifier not yet in the
pre-fetched set whose registration succeeds and which occurs exactly
twice in the batch yields exactly one added and one already-exists
outcome (in that order), never two added; the registration routine is
invoked only once for it — the second occurrence is skipped entirely —
and the successfully added identifier ends up in the set. -/
theorem c5_idempotent_registration (remote : String → AddResult) (st : SyncState)
    (batch : List String) (sid : String) (h0 : sid ∉ st.existing)
    (hok : remote sid = .ok) (hc : batch.count sid = 2) :
    outcomesFor sid batch (process_stash_batch false remote st batch).2 =
      [Outcome.added, Outcome.alreadyExists] ∧
    invocationsFor sid batch (process_stash_batch false remote st batch).2 = 1 ∧
    sid ∈ (process_stash_batch false remote st batch).1.existing := by
  induction batch generalizing st with
  | nil => simp at hc
  | cons x rest ih =>
    by_cases hx : x = sid
    · subst hx
      have hcount : rest.count x = 1 := by
        rw [List.count_cons_self] at hc
        omega
      obtain ⟨hs1, hs2, hs3⟩ := batch_skip false remote x rest
        ⟨x :: st.existing, st.addedCt + 1, st.failedCt, st.alreadyCt⟩
        (List.mem_cons_self x st.existing)
      have hbatch : process_stash_batch false remote st (x :: rest) =
          ((process_stash_batch false remote
              ⟨x :: st.existing, st.addedCt + 1, st.failedCt, st.alreadyCt⟩ rest).1,
           (Outcome.added, true) ::
             (process_stash_batch false remote
               ⟨x :: st.existing, st.addedCt + 1, st.failedCt, st.alreadyCt⟩ rest).2) := by
        simp [process_stash_batch, processScene_first remote st x h0 hok]
      rw [hbatch]
      refine ⟨?_, ?_, hs3⟩
      · rw [outcomesFor_cons]
        simp [hs1, hcount]
      · rw [invocationsFor_cons]
        simp [hs2]
    · have hcount : rest.count sid = 2 := by
        rw [List.count_cons_of_ne (Ne.symm hx)] at hc
        exact hc
      rcases hps : processScene false remote st x with ⟨st2, oc, inv⟩
      have h02 : sid ∉ st2.existing := by
        have hnm := processScene_not_mem false remote st x sid h0 hx
        rw [hps] at hnm
        exact hnm
      obtain ⟨ih1, ih2, ih3⟩ := ih st2 h02 hcount
      have hbatch : process_stash_batch false remote st (x :: rest) =
          ((process_stash_batch false remote st2 rest).1,
           (oc, inv) :: (process_stash_batch false remote st2 rest).2) := by
        simp [process_stash_batch, hps]
      rw [hbatch]
      refine ⟨?_, ?_, ih3⟩
      · rw [outcomesFor_cons]
        simp [hx, ih1]
      · rw [invocationsFor_cons]
        simp [hx, ih2]

theorem c5_idempotent_registration_witness :
    outcomesFor "a" ["a", "b", "a"]
        (process_stash_batch false (fun _ => AddResult.ok) ⟨[], 0, 0, 0⟩
          ["a", "b", "a"]).2 = [Outcome.added, Outcome.alreadyExists] ∧
    invocationsFor "a" ["a", "b", "a"]
        (process_stash_batch false (fun _ => AddResult.ok) ⟨[], 0, 0, 0⟩
          ["a", "b", "a"]).2 = 1 :=
  ⟨(c5_idempotent_registration (fun _ => AddResult.ok) ⟨[], 0, 0, 0⟩ ["a", "b", "a"] "a"
      (by decide) rfl (by decide)).1,
   (c5_idempotent_registration (fun _ => AddResult.ok) ⟨[], 0, 0, 0⟩ ["a", "b", "a"] "a"
      (by decide) rfl (by decide)).2.1⟩

/-! ### Theorems: pagination stopping rule (C6) -/

/-- Claim C6 counterexample: with the catalog `shortPages` — whose page 1
returns 30 items, fewer than the fixed page size 100, while reporting a
total of 500 — the loop does not stop after page 1: it goes on to
request pages 2 and 3.  So the loop does not stop as soon as a page
returns fewer items than the page size. -/
theorem c6_counterexample :
    (get_stash_scenes shortPages 10).2 = [1, 2, 3] ∧
    (match shortPages 1 with
     | .ok s _ => s.length
     | .err => 0) = 30 ∧
    30 < per_page := by decide

/-- Claim C6 amended: the fetch loop requests exactly the pages given by
the stopping rule "continue while each page succeeds, returns at least
one item, and the cumulative number of fetched items is still below the
total that page reports" — it stops as soon as a page errors, returns no
items, or the cumulative count reaches the reported total, whichever
happens first (an empty page, not a short page, ends the loop). -/
theorem c6_pagination (pages : Nat → PageResult) (fuel page : Nat) (acc : List Nat) :
    (fetchLoop pages fuel page acc).2 = specFetchPlan pages fuel page acc.length := by
  induction fuel generalizing page acc with
  | zero => rfl
  | succ n ih =>
    cases hp : pages page with
    | err => simp [fetchLoop, specFetchPlan, hp]
    | ok scenes total =>
      by_cases hs : scenes.isEmpty
      · simp [fetchLoop, specFetchPlan, hp, hs]
      · by_cases ht : total ≤ acc.length + scenes.length
        · have ht2 : total ≤ (acc ++ scenes).length := by
            rw [List.length_append]
            exact ht
          simp [fetchLoop, specFetchPlan, hp, hs, ht, ht2]
        · have ht2 : ¬ total ≤ (acc ++ scenes).length := by
            rw [List.length_append]
            exact ht
          simp only [fetchLoop, specFetchPlan, hp, hs, ht, ht2, if_false,
            Bool.false_eq_true]
          rw [ih]
          rw [List.length_append]

/-! ### Theorems: dry-run (C9) -/

lemma const_ifb_stats : ∀ n : Nat,
    ((List.replicate n (⟨true, []⟩ : IFBOut)).filter (fun o => o.success)).length = n ∧
    ((List.replicate n (⟨true, []⟩ : IFBOut)).map (fun o => o.posts)).flatten =
        ([] : List (List FormattedFile))
  | 0 => by simp
  | n + 1 => by
    obtain ⟨h1, h2⟩ := const_ifb_stats n
    simp [List.replicate_succ, h1, h2, List.filter_cons]

lemma pff_dry_eq_live (B : Nat) (im : String) (post : List FormattedFile → PostResult)
    (files : List FileDesc) :
    (process_file_folder true B im post files).imported =
      (process_file_folder false B im post files).imported ∧
    (process_file_folder true B im post files).unmatchedCt =
      (process_file_folder false B im post files).unmatchedCt ∧
    (process_file_folder true B im post files).slices =
      (process_file_folder false B im post files).slices ∧
    (process_file_folder true B im post files).totalBatches =
      (process_file_folder false B im post files).totalBatches := by
  by_cases hf : files.isEmpty
  · simp [process_file_folder, hf]
  · rcases hm : filter_matched_files files with ⟨m, p, u⟩
    by_cases hme : m.isEmpty
    · simp [process_file_folder, hf, hm, hme]
    · simp [process_file_folder, hf, hm, hme]

lemma pff_dry_effects (B : Nat) (im : String) (post : List FormattedFile → PostResult)
    (files : List FileDesc) :
    (process_file_folder true B im post files).posts = [] ∧
    (process_file_folder true B im post files).successfulBatches =
      (process_file_folder true B im post files).totalBatches := by
  by_cases hf : files.isEmpty
  · simp [process_file_folder, hf]
  · rcases hm : filter_matched_files files with ⟨m, p, u⟩
    by_cases hme : m.isEmpty
    · simp [process_file_folder, hf, hm, hme]
    · have hfun : import_file_batch true im post = fun _ => (⟨true, []⟩ : IFBOut) :=
        funext fun _ => rfl
      have hmap : (sliceBatches B m).map (import_file_batch true im post) =
          List.replicate (sliceBatches B m).length (⟨true, []⟩ : IFBOut) := by
        rw [hfun]
        simp
      obtain ⟨h1, h2⟩ := const_ifb_stats (sliceBatches B m).length
      simp only [process_file_folder, hf, hm, hme, if_false, Bool.false_eq_true, hmap]
      exact ⟨h2, h1⟩

/-- Claim C9: with the dry-run flag set no mutating remote call is
issued: `add_scene_to_whisparr` returns success without a POST,
`import_file_batch` reports success and issues no POST, and a dry-run
`process_file_folder` issues no POSTs while forming the same batch
slices and the same imported/unmatched/total-batch counts as the live
run — every dry-run batch reporting success. -/
theorem c9_dry_run (B : Nat) (im : String) (post : List FormattedFile → PostResult)
    (files batch : List FileDesc) (remote : String → AddResult) (sid : String) :
    add_scene_to_whisparr true remote sid = ⟨true, false, 0⟩ ∧
    import_file_batch true im post batch = ⟨true, []⟩ ∧
    (process_file_folder true B im post files).posts = [] ∧
    (process_file_folder true B im post files).imported =
      (process_file_folder false B im post files).imported ∧
    (process_file_folder true B im post files).unmatchedCt =
      (process_file_folder false B im post files).unmatchedCt ∧
    (process_file_folder true B im post files).slices =
      (process_file_folder false B im post files).slices ∧
    (process_file_folder true B im post files).totalBatches =
      (process_file_folder false B im post files).totalBatches ∧
    (process_file_folder true B im post files).successfulBatches =
      (process_file_folder true B im post files).totalBatches := by
  obtain ⟨he1, he2⟩ := pff_dry_effects B im post files
  obtain ⟨hq1, hq2, hq3, hq4⟩ := pff_dry_eq_live B im post files
  exact ⟨rfl, rfl, he1, hq1, hq2, hq3, hq4, he2⟩

/-! ### Theorems: root-entry prepending (C10) -/

/-- Claim C10: with root-file processing enabled the synthetic depth-0
root entry is prepended after the subfolder cap is applied: the root is
always in the processing list and comes first, ahead of every deeper
subfolder; and when the cap is active (truthy and exceeded) the list is
exactly the root entry followed by the first cap-many subfolders, so
one more folder than the cap is processed. -/
theorem c10_root_prepended (maxSub : Option Nat) (rootPath : String) (rootFc : Nat)
    (subs : List Entry) :
    (folders_to_process true maxSub rootPath rootFc subs).head? =
      some (rootPath, 0, rootFc) ∧
    ((rootPath, 0, rootFc) ∈ folders_to_process true maxSub rootPath rootFc subs) ∧
    (∀ m : Nat, maxSub = some m → m ≠ 0 → m < subs.length →
      folders_to_process true maxSub rootPath rootFc subs =
        (rootPath, 0, rootFc) :: subs.take m ∧
      (folders_to_process true maxSub rootPath rootFc subs).length = m + 1) := by
  refine ⟨by simp [folders_to_process], by simp [folders_to_process], ?_⟩
  intro m hm h0 hlen
  subst hm
  have htr : truncSubs (some m) subs = subs.take m := by
    simp [truncSubs, h0, hlen]
  refine ⟨by simp [folders_to_process, htr], ?_⟩
  simp [folders_to_process, htr, List.length_take]
  omega

theorem c10_root_prepended_witness :
    folders_to_process true (some 2) "/import" 4
        [("/import/a", 1, 1), ("/import/b", 1, 2), ("/import/c", 1, 3)] =
      ("/import", 0, 4) ::
        List.take 2 [("/import/a", 1, 1), ("/import/b", 1, 2), ("/import/c", 1, 3)] :=
  ((c10_root_prepended (some 2) "/import" 4
      [("/import/a", 1, 1), ("/import/b", 1, 2), ("/import/c", 1, 3)]).2.2 2 rfl
    (by decide) (by decide)).1

end Importarr

